import Mathlib

/-!
Verification of the pyrsa Dataset abstraction demonstrated in
demos/example_dataset.ipynb, together with an embedding of the notebook
itself (its sequence of top-level assignments).

The Dataset container (pyrsa.data) is not part of the visible sources,
which contain only the demonstration notebook; its operations are
therefore modelled from the specification.
-/

namespace PyRsa

/-- Errors raised by the Dataset container, modelled from the spec's
error taxonomy: ShapeMismatchError, InvalidInputError, KeyError-class. -/
inductive DatasetError where
  | shapeMismatch
  | invalidInput
  | keyError
deriving DecidableEq

/-- Modelled from the spec: a Dataset pairs an N by P measurement matrix
with dataset-level descriptors, per-observation descriptors (arrays of
length N) and per-channel descriptors (arrays of length P).  Measurement
entries have type alpha, observation labels type bo, channel labels type
bc, dataset-level descriptor values type d. -/
structure Dataset (α βo βc δ : Type) where
  measurements : List (List α)
  descriptors : List (String × δ)
  obs_descriptors : List (String × List βo)
  channel_descriptors : List (String × List βc)
deriving DecidableEq

/-- Keep the list entries whose corresponding mask bit is true. -/
def maskFilter {γ : Type} : List Bool → List γ → List γ
  | [], _ => []
  | _ :: _, [] => []
  | b :: bs, x :: xs => if b then x :: maskFilter bs xs else maskFilter bs xs

/-- Distinct values of a list, in order of first occurrence; `seen`
accumulates the values already emitted. -/
def distinctFirstAux {β : Type} [DecidableEq β] (seen : List β) : List β → List β
  | [] => []
  | x :: xs =>
    if x ∈ seen then distinctFirstAux seen xs
    else x :: distinctFirstAux (x :: seen) xs

/-- Distinct values of a list, in order of first occurrence. -/
def distinctFirst {β : Type} [DecidableEq β] (l : List β) : List β :=
  distinctFirstAux [] l

/-- Number of columns of a matrix given as a list of rows (0 when there
are no rows). -/
def ncols {α : Type} (m : List (List α)) : ℕ :=
  (m.head?.map List.length).getD 0

/-- A matrix is rectangular when every row has the common column count. -/
def isRect {α : Type} (m : List (List α)) : Bool :=
  m.all (fun row => row.length == ncols m)

variable {α βo βc δ : Type}

/-- Modelled from the spec: the Dataset constructor.  Fails with
InvalidInputError when the measurements are not rectangular 2-D, with
ShapeMismatchError when some obs-descriptor length differs from N or some
channel-descriptor length differs from P; otherwise packages the four
tables unchanged. -/
def construct (m : List (List α)) (des : List (String × δ))
    (obs : List (String × List βo)) (chn : List (String × List βc)) :
    Except DatasetError (Dataset α βo βc δ) :=
  if isRect m then
    if obs.all (fun kv => kv.2.length == m.length) then
      if chn.all (fun kv => kv.2.length == ncols m) then
        .ok ⟨m, des, obs, chn⟩
      else .error .shapeMismatch
    else .error .shapeMismatch
  else .error .invalidInput

/-- Modelled from the spec: subset_obs keeps the rows whose label under
`obs_descriptors[k]` lies in `value`, applying the same row mask to the
measurements and to every obs-descriptor array, leaving dataset-level and
channel descriptors untouched; KeyError when `k` is absent. -/
def Dataset.subset_obs [DecidableEq βo] (D : Dataset α βo βc δ)
    (k : String) (value : List βo) : Except DatasetError (Dataset α βo βc δ) :=
  match D.obs_descriptors.lookup k with
  | none => .error .keyError
  | some labels =>
    let mask := labels.map (fun l => decide (l ∈ value))
    .ok { measurements := maskFilter mask D.measurements
          descriptors := D.descriptors
          obs_descriptors := D.obs_descriptors.map (fun kv => (kv.1, maskFilter mask kv.2))
          channel_descriptors := D.channel_descriptors }

/-- Modelled from the spec: subset_channel, symmetric to subset_obs,
keeps the columns whose label under `channel_descriptors[k]` lies in
`value`, masking every row of the measurements and every channel
descriptor array alike. -/
def Dataset.subset_channel [DecidableEq βc] (D : Dataset α βo βc δ)
    (k : String) (value : List βc) : Except DatasetError (Dataset α βo βc δ) :=
  match D.channel_descriptors.lookup k with
  | none => .error .keyError
  | some labels =>
    let mask := labels.map (fun l => decide (l ∈ value))
    .ok { measurements := D.measurements.map (fun row => maskFilter mask row)
          descriptors := D.descriptors
          obs_descriptors := D.obs_descriptors
          channel_descriptors := D.channel_descriptors.map (fun kv => (kv.1, maskFilter mask kv.2)) }

/-- Modelled from the spec: split_obs returns one Dataset per distinct
value of `obs_descriptors[k]`, in first-occurrence order, each keeping
exactly the rows carrying that value. -/
def Dataset.split_obs [DecidableEq βo] (D : Dataset α βo βc δ)
    (k : String) : Except DatasetError (List (Dataset α βo βc δ)) :=
  match D.obs_descriptors.lookup k with
  | none => .error .keyError
  | some labels =>
    .ok ((distinctFirst labels).map (fun v =>
      let mask := labels.map (fun l => decide (l = v))
      { measurements := maskFilter mask D.measurements
        descriptors := D.descriptors
        obs_descriptors := D.obs_descriptors.map (fun kv => (kv.1, maskFilter mask kv.2))
        channel_descriptors := D.channel_descriptors }))

/-- Modelled from the spec: split_channel, symmetric to split_obs,
partitions the columns by their `channel_descriptors[k]` label. -/
def Dataset.split_channel [DecidableEq βc] (D : Dataset α βo βc δ)
    (k : String) : Except DatasetError (List (Dataset α βo βc δ)) :=
  match D.channel_descriptors.lookup k with
  | none => .error .keyError
  | some labels =>
    .ok ((distinctFirst labels).map (fun v =>
      let mask := labels.map (fun l => decide (l = v))
      { measurements := D.measurements.map (fun row => maskFilter mask row)
        descriptors := D.descriptors
        obs_descriptors := D.obs_descriptors
        channel_descriptors := D.channel_descriptors.map (fun kv => (kv.1, maskFilter mask kv.2)) }))

/-- Alignment invariant of the spec: N rows each of length P, every
obs-descriptor array of length N, every channel-descriptor array of
length P. -/
def WellFormed (D : Dataset α βo βc δ) (N P : ℕ) : Prop :=
  D.measurements.length = N ∧
  (∀ row ∈ D.measurements, row.length = P) ∧
  (∀ kv ∈ D.obs_descriptors, kv.2.length = N) ∧
  (∀ kv ∈ D.channel_descriptors, kv.2.length = P)

/-! ### Basic lemmas about maskFilter -/

theorem maskFilter_sublist {γ : Type} : ∀ (bs : List Bool) (xs : List γ),
    List.Sublist (maskFilter bs xs) xs
  | [], _ => by simp [maskFilter]
  | _ :: _, [] => by simp [maskFilter]
  | b :: bs, x :: xs => by
    cases b with
    | true => simpa [maskFilter] using (maskFilter_sublist bs xs).cons₂ x
    | false => simpa [maskFilter] using (maskFilter_sublist bs xs).cons x

theorem mem_of_mem_maskFilter {γ : Type} {bs : List Bool} {xs : List γ} {x : γ}
    (h : x ∈ maskFilter bs xs) : x ∈ xs :=
  (maskFilter_sublist bs xs).subset h

theorem maskFilter_eq_nil {γ : Type} : ∀ (bs : List Bool), (∀ b ∈ bs, b = false) →
    ∀ (xs : List γ), maskFilter bs xs = []
  | [], _, _ => by simp [maskFilter]
  | b :: bs, h, [] => by simp [maskFilter]
  | b :: bs, h, x :: xs => by
    have hb : b = false := h b (by simp)
    have hrest : ∀ c ∈ bs, c = false := fun c hc => h c (by simp [hc])
    simp [maskFilter, hb, maskFilter_eq_nil bs hrest xs]

/-- Filtering through a mask obtained by mapping a predicate over a
label list of equal length is the same as filtering the zipped list by
the label predicate and projecting. -/
theorem maskFilter_map_eq {β γ : Type} (p : β → Bool) : ∀ (ys : List β) (xs : List γ),
    ys.length = xs.length →
    maskFilter (ys.map p) xs = ((xs.zip ys).filter (fun q => p q.2)).map Prod.fst
  | [], [], _ => by simp [maskFilter]
  | [], _ :: _, h => by simp at h
  | _ :: _, [], h => by simp at h
  | y :: ys, x :: xs, h => by
    have hlen : ys.length = xs.length := by simpa using h
    cases hp : p y with
    | true => simp [maskFilter, hp, maskFilter_map_eq p ys xs hlen]
    | false => simp [maskFilter, hp, maskFilter_map_eq p ys xs hlen]

theorem length_maskFilter_map {β γ : Type} (p : β → Bool) : ∀ (ys : List β) (xs : List γ),
    ys.length = xs.length → (maskFilter (ys.map p) xs).length = ys.countP p
  | [], [], _ => by simp [maskFilter]
  | [], _ :: _, h => by simp at h
  | _ :: _, [], h => by simp at h
  | y :: ys, x :: xs, h => by
    have hlen : ys.length = xs.length := by simpa using h
    cases hp : p y with
    | true => simp [maskFilter, hp, length_maskFilter_map p ys xs hlen, List.countP_cons, hp]
    | false => simp [maskFilter, hp, length_maskFilter_map p ys xs hlen, List.countP_cons, hp]

/-! ### Basic lemmas about distinctFirst -/

theorem mem_distinctFirstAux {β : Type} [DecidableEq β] (a : β) :
    ∀ (l seen : List β), a ∈ distinctFirstAux seen l ↔ a ∈ l ∧ a ∉ seen
  | [], seen => by simp [distinctFirstAux]
  | x :: xs, seen => by
    by_cases hx : x ∈ seen
    · rw [distinctFirstAux, if_pos hx, mem_distinctFirstAux a xs seen]
      constructor
      · rintro ⟨h1, h2⟩; exact ⟨List.mem_cons_of_mem _ h1, h2⟩
      · rintro ⟨h1, h2⟩
        rcases List.mem_cons.mp h1 with rfl | h1
        · exact absurd hx h2
        · exact ⟨h1, h2⟩
    · rw [distinctFirstAux, if_neg hx]
      simp only [List.mem_cons, mem_distinctFirstAux a xs (x :: seen)]
      by_cases hax : a = x
      · subst hax; simp [hx]
      · simp [hax]

theorem mem_distinctFirst {β : Type} [DecidableEq β] (a : β) (l : List β) :
    a ∈ distinctFirst l ↔ a ∈ l := by
  rw [distinctFirst, mem_distinctFirstAux]; simp

theorem nodup_distinctFirstAux {β : Type} [DecidableEq β] :
    ∀ (l seen : List β), (distinctFirstAux seen l).Nodup
  | [], seen => by simp [distinctFirstAux]
  | x :: xs, seen => by
    by_cases hx : x ∈ seen
    · rw [distinctFirstAux, if_pos hx]; exact nodup_distinctFirstAux xs seen
    · rw [distinctFirstAux, if_neg hx]
      refine List.nodup_cons.mpr ⟨?_, nodup_distinctFirstAux xs (x :: seen)⟩
      rw [mem_distinctFirstAux]
      rintro ⟨-, h2⟩
      exact h2 (List.mem_cons_self x seen)

theorem nodup_distinctFirst {β : Type} [DecidableEq β] (l : List β) :
    (distinctFirst l).Nodup :=
  nodup_distinctFirstAux l []

theorem pairwise_indexOf_distinctFirstAux {β : Type} [DecidableEq β] :
    ∀ (l seen : List β),
    List.Pairwise (fun a b => l.indexOf a < l.indexOf b) (distinctFirstAux seen l)
  | [], seen => by simp [distinctFirstAux]
  | x :: xs, seen => by
    by_cases hx : x ∈ seen
    · rw [distinctFirstAux, if_pos hx]
      refine (pairwise_indexOf_distinctFirstAux xs seen).imp_of_mem ?_
      intro a b ha hb hr
      have ha' := (mem_distinctFirstAux a xs seen).mp ha
      have hb' := (mem_distinctFirstAux b xs seen).mp hb
      have hax : x ≠ a := fun h => ha'.2 (h ▸ hx)
      have hbx : x ≠ b := fun h => hb'.2 (h ▸ hx)
      rw [List.indexOf_cons_ne _ hax, List.indexOf_cons_ne _ hbx]
      exact Nat.succ_lt_succ hr
    · rw [distinctFirstAux, if_neg hx]
      refine List.pairwise_cons.mpr ⟨?_, ?_⟩
      · intro b hb
        have hb' := (mem_distinctFirstAux b xs (x :: seen)).mp hb
        have hbx : x ≠ b := fun h => hb'.2 (h ▸ List.mem_cons_self x seen)
        rw [List.indexOf_cons_self, List.indexOf_cons_ne _ hbx]
        exact Nat.succ_pos _
      · refine (pairwise_indexOf_distinctFirstAux xs (x :: seen)).imp_of_mem ?_
        intro a b ha hb hr
        have ha' := (mem_distinctFirstAux a xs (x :: seen)).mp ha
        have hb' := (mem_distinctFirstAux b xs (x :: seen)).mp hb
        have hax : x ≠ a := fun h => ha'.2 (h ▸ List.mem_cons_self x seen)
        have hbx : x ≠ b := fun h => hb'.2 (h ▸ List.mem_cons_self x seen)
        rw [List.indexOf_cons_ne _ hax, List.indexOf_cons_ne _ hbx]
        exact Nat.succ_lt_succ hr

/-- The distinct values are listed in order of first occurrence: indices
of first occurrences are strictly increasing along distinctFirst. -/
theorem pairwise_indexOf_distinctFirst {β : Type} [DecidableEq β] (l : List β) :
    List.Pairwise (fun a b => l.indexOf a < l.indexOf b) (distinctFirst l) :=
  pairwise_indexOf_distinctFirstAux l []

/-! ### Reassembling split pieces in original order -/

/-- Rebuild a list from per-label pieces: walk the label sequence and
take the next remaining element of the piece belonging to each label. -/
def reassembleF {β γ : Type} [DecidableEq β] : List β → (β → List γ) → List γ
  | [], _ => []
  | l :: ls, f =>
    match f l with
    | [] => []
    | r :: rs => r :: reassembleF ls (fun w => if w = l then rs else f w)

/-- If each piece holds, in order, exactly the elements labelled with its
value, then reassembling along the label sequence restores the original
list. -/
theorem reassembleF_spec {β γ : Type} [DecidableEq β] :
    ∀ (ps : List (γ × β)) (f : β → List γ),
    (∀ v, f v = (ps.filter (fun q => decide (q.2 = v))).map Prod.fst) →
    reassembleF (ps.map Prod.snd) f = ps.map Prod.fst
  | [], f, hf => by simp [reassembleF]
  | p :: rest, f, hf => by
    have h1 : f p.2 = p.1 :: (rest.filter (fun q => decide (q.2 = p.2))).map Prod.fst := by
      rw [hf p.2, List.filter_cons]
      simp
    simp only [List.map_cons, reassembleF, h1]
    congr 1
    apply reassembleF_spec rest
    intro v
    by_cases hv : v = p.2
    · subst hv; simp
    · rw [if_neg hv, hf v, List.filter_cons]
      have hpv : ¬ p.2 = v := fun h => hv h.symm
      simp [hpv]

theorem lookup_zip_map {β γ' : Type} [DecidableEq β] (g : β → γ') :
    ∀ (vs : List β) (v : β), v ∈ vs → (vs.zip (vs.map g)).lookup v = some (g v)
  | [], v, h => by simp at h
  | w :: ws, v, h => by
    rw [List.map_cons, List.zip_cons_cons]
    by_cases hv : v = w
    · subst hv; simp [List.lookup]
    · have hmem : v ∈ ws := by
        rcases List.mem_cons.mp h with rfl | h'
        · exact absurd rfl hv
        · exact h'
      have hbeq : (v == w) = false := beq_eq_false_iff_ne.mpr hv
      simp [List.lookup, hbeq, lookup_zip_map g ws v hmem]

theorem lookup_zip_none {β γ' : Type} [DecidableEq β] :
    ∀ (vs : List β) (xs : List γ') (v : β), v ∉ vs → (vs.zip xs).lookup v = none
  | [], _, _, _ => by simp
  | _ :: _, [], _, _ => by simp
  | w :: ws, x :: xs, v, h => by
    have hv : v ≠ w := fun hh => h (hh ▸ List.mem_cons_self w ws)
    have h' : v ∉ ws := fun hh => h (List.mem_cons_of_mem _ hh)
    rw [List.zip_cons_cons]
    have hbeq : (v == w) = false := beq_eq_false_iff_ne.mpr hv
    simp [List.lookup, hbeq, lookup_zip_none ws xs v h']

/-- Grouping a list of labelled elements by a duplicate-free list of
values covering all labels and concatenating the groups permutes the
original list. -/
theorem flatten_filter_perm {β γ : Type} [DecidableEq β] :
    ∀ (vs : List β) (ps : List (γ × β)), vs.Nodup → (∀ p ∈ ps, p.2 ∈ vs) →
    List.Perm ((vs.map (fun v => ps.filter (fun q => decide (q.2 = v)))).flatten) ps
  | [], ps, _, hcov => by
    cases ps with
    | nil => simp
    | cons p rest => exact absurd (hcov p (by simp)) (by simp)
  | v :: rest, ps, hnd, hcov => by
    have hvrest : v ∉ rest := (List.nodup_cons.mp hnd).1
    have hndrest : rest.Nodup := (List.nodup_cons.mp hnd).2
    rw [List.map_cons, List.flatten_cons]
    have hmapeq : rest.map (fun w => ps.filter (fun q => decide (q.2 = w))) =
        rest.map (fun w =>
          (ps.filter (fun q => !decide (q.2 = v))).filter (fun q => decide (q.2 = w))) := by
      apply List.map_congr_left
      intro w hw
      have hwv : w ≠ v := fun h => hvrest (h ▸ hw)
      rw [List.filter_filter]
      apply List.filter_congr
      intro q hq
      by_cases h : q.2 = w
      · simp [h, hwv]
      · simp [h]
    rw [hmapeq]
    have ihp := flatten_filter_perm rest (ps.filter (fun q => !decide (q.2 = v)))
      hndrest ?_
    · exact (ihp.append_left (ps.filter (fun q => decide (q.2 = v)))).trans
        (List.filter_append_perm _ ps)
    · intro p hp
      have hp1 : p ∈ ps := List.mem_of_mem_filter hp
      have hp2 : ¬ (p.2 = v) := by
        have := List.of_mem_filter hp
        simpa using this
      rcases List.mem_cons.mp (hcov p hp1) with h | h
      · exact absurd h hp2
      · exact h

/-! ### Concrete datasets from the notebook scenarios -/

/-- The 12 by 50 example matrix of the subset scenario (a concrete
stand-in for the random data; only its shape matters). -/
def exMeas12x50 : List (List ℕ) :=
  (List.range 12).map (fun i => (List.range 50).map (fun j => 50*i + j))

/-- The conds labels [0,0,1,1,2,2,3,3,4,4,5,5] of the subset scenario. -/
def exConds : List ℕ := [0, 0, 1, 1, 2, 2, 3, 3, 4, 4, 5, 5]

/-- The voxel labels of the subset scenario. -/
def exVoxels : List String := (List.range 50).map (fun j => "voxel_" ++ toString j)

/-- The Dataset of the notebook's subset_obs scenario. -/
def exData12 : Dataset ℕ ℕ String ℕ :=
  { measurements := exMeas12x50
    descriptors := [("session", 1), ("subj", 1)]
    obs_descriptors := [("conds", exConds)]
    channel_descriptors := [("voxels", exVoxels)] }

/-- The 4 by 30 example matrix of the split_channel scenario. -/
def exMeas4x30 : List (List ℕ) :=
  (List.range 4).map (fun i => (List.range 30).map (fun j => 30*i + j))

/-- The ROI labels as built by the notebook: ROI1, ROI2, ROI3 repeated
ten times (np.matlib.repmat interleaves the three names). -/
def exROIs : List String := (List.replicate 10 ["ROI1", "ROI2", "ROI3"]).flatten

/-- The ROI labels as written in the spec scenario: ten copies of ROI1,
then ten of ROI2, then ten of ROI3. -/
def exROIsBlocked : List String :=
  List.replicate 10 "ROI1" ++ List.replicate 10 "ROI2" ++ List.replicate 10 "ROI3"

/-- The Dataset of the notebook's split_channel scenario. -/
def exData4 : Dataset ℕ ℕ String ℕ :=
  { measurements := exMeas4x30
    descriptors := [("session", 1), ("subj", 1)]
    obs_descriptors := [("conds", [0, 1, 2, 3])]
    channel_descriptors := [("ROIs", exROIs)] }

/-- The split_channel scenario Dataset with the spec's blocked ROI
labelling instead of the notebook's interleaved one. -/
def exData4Blocked : Dataset ℕ ℕ String ℕ :=
  { measurements := exMeas4x30
    descriptors := [("session", 1), ("subj", 1)]
    obs_descriptors := [("conds", [0, 1, 2, 3])]
    channel_descriptors := [("ROIs", exROIsBlocked)] }

/-! ### Claim theorems -/

/-- C1: for every Dataset and key present in obs_descriptors, subset_obs
returns a new Dataset holding exactly the rows whose label lies in
`value`, in their original order (a sublist of the rows); the same row
mask is applied to every obs-descriptor array; the column contents and
all channel_descriptors are unchanged; and in the concrete 12 by 50
scenario with conds [0,0,1,1,2,2,3,3,4,4,5,5], subsetting to conds 0-4
yields 10 rows of 50 columns with channel_descriptors untouched. -/
theorem C1_subset_obs_filters_rows {α βo βc δ : Type} [DecidableEq βo]
    (D : Dataset α βo βc δ) (k : String) (value : List βo) (labels : List βo)
    (hk : D.obs_descriptors.lookup k = some labels)
    (hlen : labels.length = D.measurements.length) :
    ∃ E, D.subset_obs k value = .ok E ∧
      E.measurements =
        ((D.measurements.zip labels).filter (fun q => decide (q.2 ∈ value))).map Prod.fst ∧
      E.measurements.length = labels.countP (fun l => decide (l ∈ value)) ∧
      List.Sublist E.measurements D.measurements ∧
      (∀ row ∈ E.measurements, row ∈ D.measurements) ∧
      E.channel_descriptors = D.channel_descriptors ∧
      E.descriptors = D.descriptors ∧
      (∀ kv ∈ D.obs_descriptors, kv.2.length = labels.length →
        (kv.1, ((kv.2.zip labels).filter (fun q => decide (q.2 ∈ value))).map Prod.fst)
          ∈ E.obs_descriptors) ∧
      ((exData12.subset_obs "conds" [0, 1, 2, 3, 4]).toOption.map
        (fun E2 => (E2.measurements.length,
                    E2.measurements.all (fun r => r.length == 50),
                    E2.channel_descriptors == exData12.channel_descriptors)) =
        some (10, true, true)) := by
  have heq : D.subset_obs k value = .ok
      { measurements := maskFilter (labels.map (fun l => decide (l ∈ value))) D.measurements
        descriptors := D.descriptors
        obs_descriptors := D.obs_descriptors.map
          (fun kv => (kv.1, maskFilter (labels.map (fun l => decide (l ∈ value))) kv.2))
        channel_descriptors := D.channel_descriptors } := by
    simp [Dataset.subset_obs, hk]
  refine ⟨_, heq, ?_, ?_, ?_, ?_, rfl, rfl, ?_, by decide⟩
  · exact maskFilter_map_eq _ labels D.measurements hlen
  · exact length_maskFilter_map _ labels D.measurements hlen
  · exact maskFilter_sublist _ _
  · exact fun row hr => mem_of_mem_maskFilter hr
  · intro kv hkv hlen2
    refine List.mem_map.mpr ⟨kv, hkv, ?_⟩
    rw [maskFilter_map_eq _ labels kv.2 hlen2.symm]

/-- Witness for C1 at the notebook's 12 by 50 dataset. -/
theorem C1_subset_obs_filters_rows_witness :
    ∃ E, exData12.subset_obs "conds" [0, 1, 2, 3, 4] = .ok E ∧
      E.measurements.length = exConds.countP (fun l => decide (l ∈ [0, 1, 2, 3, 4])) := by
  obtain ⟨E, h1, -, h3, -⟩ :=
    C1_subset_obs_filters_rows exData12 "conds" [0, 1, 2, 3, 4] exConds
      (by decide) (by decide)
  exact ⟨E, h1, h3⟩

/-- C2: split_obs returns one Dataset per distinct label value, the
sequence following the first-occurrence order of the values; piece `i`
holds exactly the rows labelled with the `i`-th distinct value, and the
pieces together form a partition of the rows: their concatenation is a
permutation of the original rows (none dropped, none duplicated). -/
theorem C2_split_obs_partition {α βo βc δ : Type} [DecidableEq βo]
    (D : Dataset α βo βc δ) (k : String) (labels : List βo)
    (hk : D.obs_descriptors.lookup k = some labels)
    (hlen : labels.length = D.measurements.length) :
    ∃ pieces, D.split_obs k = .ok pieces ∧
      pieces.length = (distinctFirst labels).length ∧
      (distinctFirst labels).Nodup ∧
      (∀ v, v ∈ distinctFirst labels ↔ v ∈ labels) ∧
      List.Pairwise (fun a b => labels.indexOf a < labels.indexOf b)
        (distinctFirst labels) ∧
      pieces.map (fun E => E.measurements) =
        (distinctFirst labels).map (fun v =>
          ((D.measurements.zip labels).filter (fun q => decide (q.2 = v))).map Prod.fst) ∧
      List.Perm ((pieces.map (fun E => E.measurements)).flatten) D.measurements := by
  have heq : D.split_obs k = .ok ((distinctFirst labels).map (fun v =>
      let mask := labels.map (fun l => decide (l = v))
      ({ measurements := maskFilter mask D.measurements
         descriptors := D.descriptors
         obs_descriptors := D.obs_descriptors.map (fun kv => (kv.1, maskFilter mask kv.2))
         channel_descriptors := D.channel_descriptors } : Dataset α βo βc δ))) := by
    simp [Dataset.split_obs, hk]
  have hchar : ((distinctFirst labels).map (fun v =>
      let mask := labels.map (fun l => decide (l = v))
      ({ measurements := maskFilter mask D.measurements
         descriptors := D.descriptors
         obs_descriptors := D.obs_descriptors.map (fun kv => (kv.1, maskFilter mask kv.2))
         channel_descriptors := D.channel_descriptors } : Dataset α βo βc δ))).map
        (fun E => E.measurements) =
      (distinctFirst labels).map (fun v =>
        ((D.measurements.zip labels).filter (fun q => decide (q.2 = v))).map Prod.fst) := by
    rw [List.map_map]
    apply List.map_congr_left
    intro v _
    exact maskFilter_map_eq (fun l => decide (l = v)) labels D.measurements hlen
  refine ⟨_, heq, by simp, nodup_distinctFirst labels,
    fun v => mem_distinctFirst v labels, pairwise_indexOf_distinctFirst labels,
    hchar, ?_⟩
  rw [hchar]
  have hperm := flatten_filter_perm (distinctFirst labels) (D.measurements.zip labels)
    (nodup_distinctFirst labels) ?_
  · have hmapped := hperm.map Prod.fst
    rw [List.map_flatten, List.map_map,
      List.map_fst_zip D.measurements labels (le_of_eq hlen.symm)] at hmapped
    have hcomp : ((distinctFirst labels).map
        ((fun l => l.map Prod.fst) ∘ fun v =>
          (D.measurements.zip labels).filter (fun q => decide (q.2 = v)))) =
        ((distinctFirst labels).map (fun v =>
          ((D.measurements.zip labels).filter (fun q => decide (q.2 = v))).map Prod.fst)) := rfl
    rwa [hcomp] at hmapped
  · rintro ⟨r, l⟩ hp
    exact (mem_distinctFirst l labels).mpr (List.of_mem_zip hp).2

/-- Witness for C2 at the notebook's 12 by 50 dataset. -/
theorem C2_split_obs_partition_witness :
    ∃ pieces, exData12.split_obs "conds" = .ok pieces ∧
      pieces.length = (distinctFirst exConds).length ∧
      List.Perm ((pieces.map (fun E => E.measurements)).flatten) exData12.measurements := by
  obtain ⟨pieces, h1, h2, -, -, -, -, h7⟩ :=
    C2_split_obs_partition exData12 "conds" exConds (by decide) (by decide)
  exact ⟨pieces, h1, h2, h7⟩

/-- Reassembling the per-value mask filters of a list along the label
sequence restores the list. -/
theorem reassemble_maskFilter {βo γ : Type} [DecidableEq βo]
    (labels : List βo) (rows : List γ) (hlen : labels.length = rows.length) :
    reassembleF labels (fun v =>
      (((distinctFirst labels).zip ((distinctFirst labels).map
        (fun v => maskFilter (labels.map (fun l => decide (l = v))) rows))).lookup v).getD [])
      = rows := by
  have hf : ∀ v,
      ((((distinctFirst labels).zip ((distinctFirst labels).map
        (fun v => maskFilter (labels.map (fun l => decide (l = v))) rows))).lookup v).getD [])
      = ((rows.zip labels).filter (fun q => decide (q.2 = v))).map Prod.fst := by
    intro v
    by_cases hv : v ∈ distinctFirst labels
    · rw [lookup_zip_map _ (distinctFirst labels) v hv, Option.getD_some]
      exact maskFilter_map_eq _ labels rows hlen
    · rw [lookup_zip_none _ _ v hv, Option.getD_none]
      have hvl : v ∉ labels := fun h => hv ((mem_distinctFirst v labels).mpr h)
      have hnil : (rows.zip labels).filter (fun q => decide (q.2 = v)) = [] := by
        refine List.filter_eq_nil_iff.mpr ?_
        rintro ⟨r, l⟩ hq
        have hl : l ∈ labels := (List.of_mem_zip hq).2
        simp only [decide_eq_true_eq]
        exact fun h => hvl (h ▸ hl)
      rw [hnil, List.map_nil]
  have h := reassembleF_spec (rows.zip labels) _ hf
  rwa [List.map_snd_zip rows labels (le_of_eq hlen), Eq.comm,
    List.map_fst_zip rows labels (le_of_eq hlen.symm), Eq.comm] at h

/-- Association-list lookup commutes with mapping over the values. -/
theorem lookup_map_values {κ γ1 γ2 : Type} [BEq κ] (f : γ1 → γ2) (a : κ) :
    ∀ (l : List (κ × γ1)),
    (l.map (fun kv => (kv.1, f kv.2))).lookup a = (l.lookup a).map f
  | [] => rfl
  | (k1, v1) :: rest => by
    by_cases hk : a == k1
    · simp [List.lookup, hk]
    · simp only [List.map_cons, List.lookup, Bool.not_eq_true] at *
      rw [hk]
      exact lookup_map_values f a rest

/-- C3: splitting by an obs key and concatenating the pieces back in the
original row order (walking the label sequence and drawing each row from
the piece owning its label) restores the measurements exactly, and every
obs-descriptor array likewise. -/
theorem C3_split_obs_roundtrip {α βo βc δ : Type} [DecidableEq βo]
    (D : Dataset α βo βc δ) (k : String) (labels : List βo)
    (hk : D.obs_descriptors.lookup k = some labels)
    (hlen : labels.length = D.measurements.length) :
    ∃ pieces, D.split_obs k = .ok pieces ∧
      reassembleF labels (fun v =>
        (((distinctFirst labels).zip (pieces.map (fun E => E.measurements))).lookup v).getD [])
        = D.measurements ∧
      (∀ a arr, D.obs_descriptors.lookup a = some arr → arr.length = labels.length →
        reassembleF labels (fun v =>
          (((distinctFirst labels).zip (pieces.map (fun E =>
            (E.obs_descriptors.lookup a).getD []))).lookup v).getD [])
          = arr) := by
  have heq : D.split_obs k = .ok ((distinctFirst labels).map (fun v =>
      let mask := labels.map (fun l => decide (l = v))
      ({ measurements := maskFilter mask D.measurements
         descriptors := D.descriptors
         obs_descriptors := D.obs_descriptors.map (fun kv => (kv.1, maskFilter mask kv.2))
         channel_descriptors := D.channel_descriptors } : Dataset α βo βc δ))) := by
    simp [Dataset.split_obs, hk]
  refine ⟨_, heq, ?_, ?_⟩
  · have hmm : (((distinctFirst labels).map (fun v =>
        let mask := labels.map (fun l => decide (l = v))
        ({ measurements := maskFilter mask D.measurements
           descriptors := D.descriptors
           obs_descriptors := D.obs_descriptors.map (fun kv => (kv.1, maskFilter mask kv.2))
           channel_descriptors := D.channel_descriptors } : Dataset α βo βc δ))).map
          (fun E => E.measurements)) =
        (distinctFirst labels).map
          (fun v => maskFilter (labels.map (fun l => decide (l = v))) D.measurements) := by
      rw [List.map_map]
      rfl
    rw [hmm]
    exact reassemble_maskFilter labels D.measurements hlen
  · intro a arr ha hlen2
    have hmm : (((distinctFirst labels).map (fun v =>
        let mask := labels.map (fun l => decide (l = v))
        ({ measurements := maskFilter mask D.measurements
           descriptors := D.descriptors
           obs_descriptors := D.obs_descriptors.map (fun kv => (kv.1, maskFilter mask kv.2))
           channel_descriptors := D.channel_descriptors } : Dataset α βo βc δ))).map
          (fun E => (E.obs_descriptors.lookup a).getD [])) =
        (distinctFirst labels).map
          (fun v => maskFilter (labels.map (fun l => decide (l = v))) arr) := by
      rw [List.map_map]
      apply List.map_congr_left
      intro v _
      show ((D.obs_descriptors.map (fun kv =>
        (kv.1, maskFilter (labels.map (fun l => decide (l = v))) kv.2))).lookup a).getD [] = _
      rw [lookup_map_values, ha]
      simp
    rw [hmm]
    exact reassemble_maskFilter labels arr (hlen2.symm)

/-- Witness for C3 at the notebook's 12 by 50 dataset. -/
theorem C3_split_obs_roundtrip_witness :
    ∃ pieces, exData12.split_obs "conds" = .ok pieces ∧
      reassembleF exConds (fun v =>
        (((distinctFirst exConds).zip (pieces.map (fun E => E.measurements))).lookup v).getD [])
        = exData12.measurements := by
  obtain ⟨pieces, h1, h2, -⟩ :=
    C3_split_obs_roundtrip exData12 "conds" exConds (by decide) (by decide)
  exact ⟨pieces, h1, h2⟩

/-- C4: with rectangular measurements, construction fails with
ShapeMismatchError exactly when some obs-descriptor length differs from
the row count N or some channel-descriptor length differs from the
column count P, and no Dataset is produced then; when construction
succeeds, all lengths match and the returned Dataset packages the four
tables unchanged. -/
theorem C4_construct_validation {α βo βc δ : Type}
    (m : List (List α)) (des : List (String × δ))
    (obs : List (String × List βo)) (chn : List (String × List βc))
    (hrect : isRect m = true) :
    (construct m des obs chn = .error .shapeMismatch ↔
      ¬ ((∀ kv ∈ obs, kv.2.length = m.length) ∧ (∀ kv ∈ chn, kv.2.length = ncols m))) ∧
    (∀ E, construct m des obs chn = .ok E →
      (∀ kv ∈ obs, kv.2.length = m.length) ∧ (∀ kv ∈ chn, kv.2.length = ncols m) ∧
        E = ⟨m, des, obs, chn⟩) := by
  by_cases h1 : obs.all (fun kv => kv.2.length == m.length) = true
  · by_cases h2 : chn.all (fun kv => kv.2.length == ncols m) = true
    · have ho : ∀ kv ∈ obs, kv.2.length = m.length := fun kv hkv => by
        have := List.all_eq_true.mp h1 kv hkv
        simpa using this
      have hc : ∀ kv ∈ chn, kv.2.length = ncols m := fun kv hkv => by
        have := List.all_eq_true.mp h2 kv hkv
        simpa using this
      refine ⟨iff_of_false (by simp [construct, hrect, h1, h2]) (fun hn => hn ⟨ho, hc⟩), ?_⟩
      intro E hE
      simp only [construct, hrect, h1, h2, if_true] at hE
      exact ⟨ho, hc, (Except.ok.inj hE).symm⟩
    · have hc : ¬ ∀ kv ∈ chn, kv.2.length = ncols m := by
        intro hc
        exact h2 (List.all_eq_true.mpr fun kv hkv => by simpa using hc kv hkv)
      refine ⟨iff_of_true (by simp [construct, hrect, h1, h2]) (fun hand => hc hand.2), ?_⟩
      intro E hE
      simp [construct, hrect, h1, h2] at hE
  · have ho : ¬ ∀ kv ∈ obs, kv.2.length = m.length := by
      intro ho
      exact h1 (List.all_eq_true.mpr fun kv hkv => by simpa using ho kv hkv)
    refine ⟨iff_of_true (by simp [construct, hrect, h1]) (fun hand => ho hand.1), ?_⟩
    intro E hE
    simp [construct, hrect, h1] at hE

/-- The 12 by 2 measurement matrix of the failing-construction example. -/
def exBadMeas : List (List ℕ) := (List.range 12).map (fun i => [i, i])

/-- An obs-descriptor table whose only array has length 10, mismatching
the 12 rows of exBadMeas. -/
def exBadObs : List (String × List ℕ) := [("conds", List.range 10)]

/-- Witness for C4: constructing with N = 12 but an obs-descriptor of
length 10 yields ShapeMismatchError. -/
theorem C4_construct_validation_witness :
    construct exBadMeas ([] : List (String × ℕ)) exBadObs
      ([] : List (String × List ℕ)) = .error .shapeMismatch :=
  (C4_construct_validation exBadMeas [] exBadObs [] (by decide)).1.mpr
    (by
      intro hand
      have := hand.1 ("conds", List.range 10) (by decide)
      simp [exBadMeas] at this)

/-- C6: on the 4 by 30 dataset whose ROIs channel descriptor assigns 10
channels each to ROI1, ROI2 and ROI3 (both in the notebook's interleaved
layout and in the spec's blocked layout), split_channel returns exactly 3
Datasets, each with 4 rows of 10 columns, in the order ROI1, ROI2, ROI3
(each piece's ROIs descriptor is 10 copies of its ROI name). -/
theorem C6_split_channel_scenario :
    ((exData4.split_channel "ROIs").toOption.map (fun ps =>
      (ps.length,
       ps.all (fun E => E.measurements.length == 4 &&
         E.measurements.all (fun r => r.length == 10)),
       ps.map (fun E => (E.channel_descriptors.lookup "ROIs").getD [])))
      = some (3, true,
          [List.replicate 10 "ROI1", List.replicate 10 "ROI2", List.replicate 10 "ROI3"])) ∧
    ((exData4Blocked.split_channel "ROIs").toOption.map (fun ps =>
      (ps.length,
       ps.all (fun E => E.measurements.length == 4 &&
         E.measurements.all (fun r => r.length == 10)),
       ps.map (fun E => (E.channel_descriptors.lookup "ROIs").getD [])))
      = some (3, true,
          [List.replicate 10 "ROI1", List.replicate 10 "ROI2", List.replicate 10 "ROI3"])) :=
  ⟨by decide, by decide⟩

/-- C7: subset_obs fails with the KeyError-class error exactly when the
key is absent from obs_descriptors; when the key is present but no row
matches, it succeeds with an empty Dataset of 0 rows, distinguishable
from an error by inspecting the row count. -/
theorem C7_subset_obs_keyerror_empty {α βo βc δ : Type} [DecidableEq βo]
    (D : Dataset α βo βc δ) (k : String) (value : List βo) :
    (D.subset_obs k value = .error .keyError ↔ D.obs_descriptors.lookup k = none) ∧
    (∀ labels, D.obs_descriptors.lookup k = some labels →
      (∀ l ∈ labels, l ∉ value) →
      ∃ E, D.subset_obs k value = .ok E ∧ E.measurements = [] ∧
        E.measurements.length = 0) := by
  constructor
  · cases hcase : D.obs_descriptors.lookup k with
    | none => exact iff_of_true (by simp [Dataset.subset_obs, hcase]) rfl
    | some labels =>
      refine iff_of_false ?_ (by simp)
      simp [Dataset.subset_obs, hcase]
  · intro labels hk hnone
    have heq : D.subset_obs k value = .ok
        { measurements := maskFilter (labels.map (fun l => decide (l ∈ value))) D.measurements
          descriptors := D.descriptors
          obs_descriptors := D.obs_descriptors.map
            (fun kv => (kv.1, maskFilter (labels.map (fun l => decide (l ∈ value))) kv.2))
          channel_descriptors := D.channel_descriptors } := by
      simp [Dataset.subset_obs, hk]
    have hnil : maskFilter (labels.map (fun l => decide (l ∈ value))) D.measurements = [] := by
      apply maskFilter_eq_nil
      intro b hb
      obtain ⟨l, hl, rfl⟩ := List.mem_map.mp hb
      simpa using hnone l hl
    exact ⟨_, heq, hnil, by simp [hnil]⟩

/-- Witness for C7: an absent key raises the KeyError-class error on the
12 by 50 dataset, and a present key with no matching rows returns an
empty 0-row Dataset. -/
theorem C7_subset_obs_keyerror_empty_witness :
    (exData12.subset_obs "foo" [0] = .error .keyError) ∧
    (∃ E, exData12.subset_obs "conds" [99] = .ok E ∧ E.measurements = [] ∧
      E.measurements.length = 0) := by
  constructor
  · exact (C7_subset_obs_keyerror_empty exData12 "foo" [0]).1.mpr (by decide)
  · exact (C7_subset_obs_keyerror_empty exData12 "conds" [99]).2 exConds
      (by decide) (by decide)

/-- A successful association-list lookup comes from an entry of the
list. -/
theorem lookup_mem {κ γ : Type} [BEq κ] [LawfulBEq κ] {a : κ} {b : γ} :
    ∀ {l : List (κ × γ)}, l.lookup a = some b → (a, b) ∈ l
  | [], h => by simp [List.lookup] at h
  | (k1, v1) :: rest, h => by
    by_cases hk : (a == k1) = true
    · have hak : a = k1 := eq_of_beq hk
      subst hak
      simp [List.lookup] at h
      subst h
      exact List.mem_cons_self _ _
    · rw [Bool.not_eq_true] at hk
      simp [List.lookup, hk] at h
      exact List.mem_cons_of_mem _ (lookup_mem h)

/-- Masking the rows of a well-formed dataset by a predicate over a
label list of length N yields a well-formed dataset whose row count is
the number of matching labels; columns are untouched. -/
theorem wf_mask_rows {α βo βc δ τ : Type} (D : Dataset α βo βc δ) (N P : ℕ)
    (labels : List τ) (p : τ → Bool) (hWF : WellFormed D N P) (hlab : labels.length = N) :
    WellFormed
      { measurements := maskFilter (labels.map p) D.measurements
        descriptors := D.descriptors
        obs_descriptors := D.obs_descriptors.map
          (fun kv => (kv.1, maskFilter (labels.map p) kv.2))
        channel_descriptors := D.channel_descriptors }
      (labels.countP p) P := by
  obtain ⟨hN, hP, hobs, hchn⟩ := hWF
  refine ⟨?_, ?_, ?_, hchn⟩
  · exact length_maskFilter_map p labels D.measurements (by rw [hlab, hN])
  · intro row hrow
    exact hP row (mem_of_mem_maskFilter hrow)
  · intro kv hkv
    obtain ⟨kv0, hkv0, rfl⟩ := List.mem_map.mp hkv
    exact length_maskFilter_map p labels kv0.2 (by rw [hlab, hobs kv0 hkv0])

/-- Masking the columns of a well-formed dataset by a predicate over a
label list of length P yields a well-formed dataset whose column count is
the number of matching labels; rows are untouched. -/
theorem wf_mask_cols {α βo βc δ τ : Type} (D : Dataset α βo βc δ) (N P : ℕ)
    (labels : List τ) (p : τ → Bool) (hWF : WellFormed D N P) (hlab : labels.length = P) :
    WellFormed
      { measurements := D.measurements.map (fun row => maskFilter (labels.map p) row)
        descriptors := D.descriptors
        obs_descriptors := D.obs_descriptors
        channel_descriptors := D.channel_descriptors.map
          (fun kv => (kv.1, maskFilter (labels.map p) kv.2)) }
      N (labels.countP p) := by
  obtain ⟨hN, hP, hobs, hchn⟩ := hWF
  refine ⟨by simpa using hN, ?_, hobs, ?_⟩
  · intro row hrow
    obtain ⟨r0, hr0, rfl⟩ := List.mem_map.mp hrow
    exact length_maskFilter_map p labels r0 (by rw [hlab, hP r0 hr0])
  · intro kv hkv
    obtain ⟨kv0, hkv0, rfl⟩ := List.mem_map.mp hkv
    exact length_maskFilter_map p labels kv0.2 (by rw [hlab, hchn kv0 hkv0])

/-- C8: every Dataset produced by construction or by subset_obs,
subset_channel, split_obs or split_channel satisfies the alignment
invariants: obs-descriptor arrays as long as the result's row count,
channel-descriptor arrays as long as the result's column count (and all
rows of equal length). -/
theorem C8_alignment_invariants {α βo βc δ : Type} [DecidableEq βo] [DecidableEq βc] :
    (∀ (m : List (List α)) (des : List (String × δ)) (obs : List (String × List βo))
        (chn : List (String × List βc)) (E : Dataset α βo βc δ),
      construct m des obs chn = .ok E → WellFormed E m.length (ncols m)) ∧
    (∀ (D : Dataset α βo βc δ) (N P : ℕ) (k : String) (value : List βo)
        (E : Dataset α βo βc δ), WellFormed D N P → D.subset_obs k value = .ok E →
      ∃ N2, WellFormed E N2 P) ∧
    (∀ (D : Dataset α βo βc δ) (N P : ℕ) (k : String) (value : List βc)
        (E : Dataset α βo βc δ), WellFormed D N P → D.subset_channel k value = .ok E →
      ∃ P2, WellFormed E N P2) ∧
    (∀ (D : Dataset α βo βc δ) (N P : ℕ) (k : String) (pieces : List (Dataset α βo βc δ)),
      WellFormed D N P → D.split_obs k = .ok pieces →
      ∀ E ∈ pieces, ∃ N2, WellFormed E N2 P) ∧
    (∀ (D : Dataset α βo βc δ) (N P : ℕ) (k : String) (pieces : List (Dataset α βo βc δ)),
      WellFormed D N P → D.split_channel k = .ok pieces →
      ∀ E ∈ pieces, ∃ P2, WellFormed E N P2) := by
  refine ⟨?_, ?_, ?_, ?_, ?_⟩
  · intro m des obs chn E hE
    by_cases hrect : isRect m = true
    · by_cases h1 : (obs.all (fun kv => kv.2.length == m.length)) = true
      · by_cases h2 : (chn.all (fun kv => kv.2.length == ncols m)) = true
        · simp only [construct, hrect, h1, h2, if_true] at hE
          obtain rfl : E = ⟨m, des, obs, chn⟩ := (Except.ok.inj hE).symm
          refine ⟨rfl, ?_, ?_, ?_⟩
          · intro row hrow
            have := List.all_eq_true.mp hrect row hrow
            simpa using this
          · intro kv hkv
            have := List.all_eq_true.mp h1 kv hkv
            simpa using this
          · intro kv hkv
            have := List.all_eq_true.mp h2 kv hkv
            simpa using this
        · simp [construct, hrect, h1, h2] at hE
      · simp [construct, hrect, h1] at hE
    · simp [construct, hrect] at hE
  · intro D N P k value E hWF hE
    cases hk : D.obs_descriptors.lookup k with
    | none => simp [Dataset.subset_obs, hk] at hE
    | some labels =>
      have heq : D.subset_obs k value = .ok
          { measurements := maskFilter (labels.map (fun l => decide (l ∈ value))) D.measurements
            descriptors := D.descriptors
            obs_descriptors := D.obs_descriptors.map
              (fun kv => (kv.1, maskFilter (labels.map (fun l => decide (l ∈ value))) kv.2))
            channel_descriptors := D.channel_descriptors } := by
        simp [Dataset.subset_obs, hk]
      rw [heq] at hE
      obtain rfl := (Except.ok.inj hE)
      have hlab : labels.length = N := hWF.2.2.1 (k, labels) (lookup_mem hk)
      exact ⟨labels.countP (fun l => decide (l ∈ value)),
        wf_mask_rows D N P labels _ hWF hlab⟩
  · intro D N P k value E hWF hE
    cases hk : D.channel_descriptors.lookup k with
    | none => simp [Dataset.subset_channel, hk] at hE
    | some labels =>
      have heq : D.subset_channel k value = .ok
          { measurements := D.measurements.map
              (fun row => maskFilter (labels.map (fun l => decide (l ∈ value))) row)
            descriptors := D.descriptors
            obs_descriptors := D.obs_descriptors
            channel_descriptors := D.channel_descriptors.map
              (fun kv => (kv.1, maskFilter (labels.map (fun l => decide (l ∈ value))) kv.2)) } := by
        simp [Dataset.subset_channel, hk]
      rw [heq] at hE
      obtain rfl := (Except.ok.inj hE)
      have hlab : labels.length = P := hWF.2.2.2 (k, labels) (lookup_mem hk)
      exact ⟨labels.countP (fun l => decide (l ∈ value)),
        wf_mask_cols D N P labels _ hWF hlab⟩
  · intro D N P k pieces hWF hE E hEmem
    cases hk : D.obs_descriptors.lookup k with
    | none => simp [Dataset.split_obs, hk] at hE
    | some labels =>
      have heq : D.split_obs k = .ok ((distinctFirst labels).map (fun v =>
          let mask := labels.map (fun l => decide (l = v))
          ({ measurements := maskFilter mask D.measurements
             descriptors := D.descriptors
             obs_descriptors := D.obs_descriptors.map (fun kv => (kv.1, maskFilter mask kv.2))
             channel_descriptors := D.channel_descriptors } : Dataset α βo βc δ))) := by
        simp [Dataset.split_obs, hk]
      rw [heq] at hE
      obtain rfl := (Except.ok.inj hE)
      obtain ⟨v, hv, rfl⟩ := List.mem_map.mp hEmem
      have hlab : labels.length = N := hWF.2.2.1 (k, labels) (lookup_mem hk)
      exact ⟨labels.countP (fun l => decide (l = v)),
        wf_mask_rows D N P labels _ hWF hlab⟩
  · intro D N P k pieces hWF hE E hEmem
    cases hk : D.channel_descriptors.lookup k with
    | none => simp [Dataset.split_channel, hk] at hE
    | some labels =>
      have heq : D.split_channel k = .ok ((distinctFirst labels).map (fun v =>
          let mask := labels.map (fun l => decide (l = v))
          ({ measurements := D.measurements.map (fun row => maskFilter mask row)
             descriptors := D.descriptors
             obs_descriptors := D.obs_descriptors
             channel_descriptors := D.channel_descriptors.map
               (fun kv => (kv.1, maskFilter mask kv.2)) } : Dataset α βo βc δ))) := by
        simp [Dataset.split_channel, hk]
      rw [heq] at hE
      obtain rfl := (Except.ok.inj hE)
      obtain ⟨v, hv, rfl⟩ := List.mem_map.mp hEmem
      have hlab : labels.length = P := hWF.2.2.2 (k, labels) (lookup_mem hk)
      exact ⟨labels.countP (fun l => decide (l = v)),
        wf_mask_cols D N P labels _ hWF hlab⟩

/-- Witness for C8: the constructed 12 by 50 notebook dataset is
well-formed. -/
theorem C8_alignment_invariants_witness :
    WellFormed exData12 exMeas12x50.length (ncols exMeas12x50) :=
  (@C8_alignment_invariants ℕ ℕ String ℕ _ _).1
    exMeas12x50 [("session", 1), ("subj", 1)] [("conds", exConds)]
    [("voxels", exVoxels)] exData12 (by rfl)

/-! ### Embedding of the notebook's top-level statements

The notebook demos/example_dataset.ipynb is a straight-line sequence of
assignments and calls.  For the name-resolution claims we record, for
each statement in order, which global names it reads and which it
binds.  Builtins (print) and attribute or file accesses are not part of
name resolution and are not modelled. -/

/-- One notebook statement: the global names it reads and binds. -/
structure Stmt where
  reads : List String
  writes : List String
deriving DecidableEq

/-- Outcome of running statements: final environment, or the index of
the first statement reading an unbound name together with that name. -/
inductive RunResult where
  | ok (env : List String)
  | failedAt (i : ℕ) (missing : String)
deriving DecidableEq

/-- Run statements in order from index i: a statement reading a name
absent from the environment fails there; otherwise its writes are added
and execution continues. -/
def runFrom : ℕ → List String → List Stmt → RunResult
  | _, env, [] => .ok env
  | i, env, s :: rest =>
    match s.reads.find? (fun n => !(env.contains n)) with
    | some n => .failedAt i n
    | none => runFrom (i+1) (env ++ s.writes) rest

/-- The statements of demos/example_dataset.ipynb, in cell order. -/
def notebookStmts : List Stmt := [
  -- cell 1: imports
  ⟨[], ["np"]⟩,
  ⟨[], ["io"]⟩,
  ⟨[], ["plt"]⟩,
  ⟨[], ["pyrsa"]⟩,
  ⟨[], ["rsd"]⟩,
  -- cell 2: load the .mat file and plot
  ⟨["io"], ["measurements"]⟩,
  ⟨["measurements"], ["measurements"]⟩,
  ⟨["measurements"], ["nCond"]⟩,
  ⟨["measurements"], ["nVox"]⟩,
  ⟨["plt", "measurements"], []⟩,
  ⟨["plt"], []⟩,
  ⟨["plt"], []⟩,
  ⟨["plt"], []⟩,
  -- cell 3: single-subject dataset
  ⟨[], ["des"]⟩,
  ⟨["np", "nCond"], ["obs_des"]⟩,
  ⟨["np", "nVox"], ["chn_des"]⟩,
  ⟨["rsd", "measurements", "des", "obs_des", "chn_des"], ["data"]⟩,
  ⟨["data"], []⟩,
  -- cell 4: random dataset and subset_obs
  ⟨[], ["nChannel"]⟩,
  ⟨[], ["nObs"]⟩,
  ⟨["np", "nObs", "nChannel"], ["randomData"]⟩,
  ⟨[], ["des"]⟩,
  ⟨["np"], ["obs_des"]⟩,
  ⟨["np", "nChannel"], ["chn_des"]⟩,
  ⟨["rsd", "randomData", "des", "obs_des", "chn_des"], ["data"]⟩,
  ⟨["data"], ["sub_data"]⟩,
  ⟨["sub_data"], []⟩,
  -- cell 5: ROI dataset and split_channel
  ⟨[], ["nChannel"]⟩,
  ⟨[], ["nChannelVox"]⟩,
  ⟨[], ["nObs"]⟩,
  ⟨["np", "nObs", "nChannel", "nChannelVox"], ["randomData"]⟩,
  ⟨[], ["des"]⟩,
  ⟨["np"], ["obs_des"]⟩,
  ⟨["np", "nChannelVox"], ["chn_des"]⟩,
  ⟨["np", "chn_des"], ["chn_des"]⟩,
  ⟨["rsd", "randomData", "des", "obs_des", "chn_des"], ["data"]⟩,
  ⟨["data"], ["split_data"]⟩,
  ⟨["split_data"], []⟩,
  -- cell 6: multi-subject data generation
  ⟨[], ["nVox"]⟩,
  ⟨[], ["nCond"]⟩,
  ⟨[], ["nSubj"]⟩,
  ⟨["np", "nConds", "nChannel", "nSubj"], ["randomData"]⟩,
  -- cell 7: list of per-subject datasets
  ⟨["np", "nCond"], ["obs_des"]⟩,
  ⟨["np", "nVox"], ["chn_des"]⟩,
  ⟨[], ["data"]⟩,
  ⟨["np", "nSubj", "rsd", "randomData", "obs_des", "chn_des", "data"],
   ["des", "data", "i"]⟩]

/-- C9: running the notebook statement by statement fails at statement
41 - the multi-subject data generation line randomData =
np.random.rand(nConds, nChannel, nSubj) - because nConds is unbound
there; indeed no statement of the notebook ever binds nConds (only nCond
is defined), and execution stops before the multi-subject array or any
of the loop's Datasets is created. -/
theorem C9_unbound_nConds :
    runFrom 0 [] notebookStmts = .failedAt 41 "nConds" ∧
    notebookStmts[41]? =
      some ⟨["np", "nConds", "nChannel", "nSubj"], ["randomData"]⟩ ∧
    (∀ s ∈ notebookStmts, "nConds" ∉ s.writes) :=
  ⟨by decide, by decide, by decide⟩

/-! ### The multi-subject loop of cell 7 -/

/-- The slice randomData[:,:,s] of a three-dimensional array given as
rows of columns of per-subject values (default value for out-of-range
indices). -/
def sliceAt {α : Type} (rd : List (List (List α))) (dflt : α) (s : ℕ) : List (List α) :=
  rd.map (fun row => row.map (fun cell => cell.getD s dflt))

/-- The body of the notebook loop, iterated over the remaining subject
indices: construct a Dataset from the fixed slice with descriptors
session 1 and subj i+1, appending on success and aborting on the first
construction error. -/
def subjectLoopAux {α βo βc : Type} (slice0 : List (List α))
    (obs : List (String × List βo)) (chn : List (String × List βc)) :
    List ℕ → Except DatasetError (List (Dataset α βo βc ℕ))
  | [] => .ok []
  | i :: is =>
    match construct slice0 [("session", 1), ("subj", i+1)] obs chn with
    | .error e => .error e
    | .ok d =>
      match subjectLoopAux slice0 obs chn is with
      | .error e => .error e
      | .ok ds => .ok (d :: ds)

/-- The notebook's multi-subject loop: for i in range(nSubj), construct
a Dataset from randomData[:,:,0] (always slice 0, not slice i) with the
shared obs and channel descriptors and per-subject descriptors
session 1, subj i+1. -/
def subjectLoop {α βo βc : Type} (rd : List (List (List α))) (dflt : α)
    (obs : List (String × List βo)) (chn : List (String × List βc))
    (nSubj : ℕ) : Except DatasetError (List (Dataset α βo βc ℕ)) :=
  subjectLoopAux (sliceAt rd dflt 0) obs chn (List.range nSubj)

/-- C10: when construction succeeds, the loop yields nSubj Datasets that
all share the same measurements (the slice randomData[:,:,0]) and the
same obs and channel descriptors, differing only in the dataset-level
descriptors, where subj takes the values 1 through nSubj in order. -/
theorem C10_multi_subject_loop {α βo βc : Type} (rd : List (List (List α))) (dflt : α)
    (obs : List (String × List βo)) (chn : List (String × List βc)) (nSubj : ℕ)
    (hrect : isRect (sliceAt rd dflt 0) = true)
    (hobs : (obs.all (fun kv => kv.2.length == (sliceAt rd dflt 0).length)) = true)
    (hchn : (chn.all (fun kv => kv.2.length == ncols (sliceAt rd dflt 0))) = true) :
    ∃ ds, subjectLoop rd dflt obs chn nSubj = .ok ds ∧ ds.length = nSubj ∧
      ∀ j (hj : j < ds.length),
        (ds.get ⟨j, hj⟩).measurements = sliceAt rd dflt 0 ∧
        (ds.get ⟨j, hj⟩).obs_descriptors = obs ∧
        (ds.get ⟨j, hj⟩).channel_descriptors = chn ∧
        (ds.get ⟨j, hj⟩).descriptors = [("session", 1), ("subj", j+1)] := by
  have hcon : ∀ i : ℕ, construct (sliceAt rd dflt 0) [("session", 1), ("subj", i+1)] obs chn =
      .ok ⟨sliceAt rd dflt 0, [("session", 1), ("subj", i+1)], obs, chn⟩ := by
    intro i
    simp [construct, hrect, hobs, hchn]
  have haux : ∀ is : List ℕ, subjectLoopAux (sliceAt rd dflt 0) obs chn is =
      .ok (is.map (fun i =>
        (⟨sliceAt rd dflt 0, [("session", 1), ("subj", i+1)], obs, chn⟩ :
          Dataset α βo βc ℕ))) := by
    intro is
    induction is with
    | nil => rfl
    | cons i is ih => simp [subjectLoopAux, hcon i, ih]
  refine ⟨_, haux (List.range nSubj), by simp, ?_⟩
  intro j hj
  refine ⟨?_, ?_, ?_, ?_⟩ <;>
    simp [List.get_eq_getElem, List.getElem_map, List.getElem_range]

/-- Witness for C10 on a concrete 2 by 2 by 1 array with two subjects. -/
theorem C10_multi_subject_loop_witness :
    ∃ ds, subjectLoop [[[7], [8]], [[9], [10]]] 0
        [("conds", [0, 1])] [("voxels", [0, 1])] 2 = .ok ds ∧ ds.length = 2 ∧
      ∀ j (hj : j < ds.length),
        (ds.get ⟨j, hj⟩).measurements = sliceAt [[[7], [8]], [[9], [10]]] 0 0 ∧
        (ds.get ⟨j, hj⟩).obs_descriptors = [("conds", [0, 1])] ∧
        (ds.get ⟨j, hj⟩).channel_descriptors = [("voxels", [0, 1])] ∧
        (ds.get ⟨j, hj⟩).descriptors = [("session", 1), ("subj", j+1)] :=
  C10_multi_subject_loop [[[7], [8]], [[9], [10]]] 0
    [("conds", [0, 1])] [("voxels", [0, 1])] 2 (by decide) (by decide) (by decide)

end PyRsa
